import Mathlib

/-! The overlapping-storage cell `UN` of `code_cpp98or03/union.h`.

`union UN` puts five members at offset 0 of one block of storage:

* `std::int64_t long_long_int_value` (8 bytes),
* `int int_value` (4 bytes),
* `double double_value` (8 bytes, handled here as its 64-bit pattern),
* `char char_value` (1 byte, handled here as its code `0 .. 255`),
* `std::string string_value` (private; built with placement new and torn down by hand).

The embedding keeps the storage as a list of bytes in little-endian order.
Assigning to a numeric member replaces the first `sizeof(member)` bytes and leaves the
rest alone; reading a numeric member decodes the first `sizeof(member)` bytes.  The
`std::string` object that lives in the storage between `set_string_value` and
`destroy_string_value` is kept next to the bytes; what the library writes into the
storage for it is a parameter (`Platform`).
-/

set_option linter.unusedVariables false

namespace UnionCell

/-! ## Bytes -/

/-- The `k` little-endian bytes of `n` (its low `8 * k` bits). -/
def toLE : Nat → Nat → List Nat
  | 0, _ => []
  | k + 1, n => n % 256 :: toLE k (n / 256)

/-- The number whose little-endian bytes are `bs`. -/
def fromLE : List Nat → Nat
  | [] => 0
  | b :: bs => b + 256 * fromLE bs

/-- Storing the bytes `bs` at offset 0 of the storage `st`: the bytes behind them stay. -/
def store (bs st : List Nat) : List Nat :=
  bs ++ st.drop bs.length

/-- Loading `w` bytes from offset 0 of the storage `st`. -/
def load (w : Nat) (st : List Nat) : Nat :=
  fromLE (st.take w)

/-- The two's complement pattern of the signed value `v` in `bits` bits. -/
def toUnsigned (bits : Nat) (v : Int) : Nat :=
  (v % 2 ^ bits).toNat

/-- The signed value of the two's complement pattern `n` in `bits` bits. -/
def toSigned (bits : Nat) (n : Nat) : Int :=
  if n % 2 ^ bits < 2 ^ (bits - 1) then ((n % 2 ^ bits : Nat) : Int)
  else ((n % 2 ^ bits : Nat) : Int) - 2 ^ bits

/-! ## The platform: what the standard library does for `std::string` -/

/-- What the source takes from the standard library: the size and alignment of
`std::string`, the bytes its copy constructor stores at the start of the object
(`string_ctor`), and the bytes its destructor stores there (`string_dtor`, empty when the
destructor only releases memory).  At most `sizeof_string` of these bytes are used. -/
structure Platform where
  sizeof_string : Nat
  alignof_string : Nat
  string_ctor : String → List Nat
  string_dtor : String → List Nat

/-- The layout of `std::string` in libstdc++ on x86-64, for an object at address `addr`:
a pointer to the characters, the length, and a 16-byte local buffer that holds strings of
up to 15 characters (the pointer then points to the buffer, at `addr + 16`, and the buffer
bytes behind the terminator are not written); a longer string has its characters at
`heap` and its capacity in the first buffer word.  The destructor writes nothing. -/
def libstdcxx (addr heap : Nat) : Platform where
  sizeof_string := 32
  alignof_string := 8
  string_ctor := fun s =>
    let cs := s.toList.map (fun ch => ch.toNat % 256)
    if cs.length ≤ 15 then toLE 8 (addr + 16) ++ toLE 8 cs.length ++ cs ++ [0]
    else toLE 8 heap ++ toLE 8 cs.length ++ toLE 8 cs.length
  string_dtor := fun _ => []

/-! ## The members of the union and its size -/

/-- The numeric members of `union UN` (lines 11-14). -/
inductive Member where
  | long_long_int_value
  | int_value
  | double_value
  | char_value
  deriving DecidableEq, Repr

/-- The value of `sizeof` for the type of a numeric member. -/
def Member.sizeof : Member → Nat
  | .long_long_int_value => 8
  | .int_value => 4
  | .double_value => 8
  | .char_value => 1

/-- Sizes and alignments of the five members of `union UN`: the four numeric members
(naturally aligned) and `std::string string_value`. -/
def memberLayouts (P : Platform) : List (Nat × Nat) :=
  [(8, 8), (4, 4), (8, 8), (1, 1), (P.sizeof_string, P.alignof_string)]

/-- The largest member size. -/
def maxMemberSize (P : Platform) : Nat :=
  ((memberLayouts P).map Prod.fst).foldl max 0

/-- The alignment of the union: the strictest member alignment. -/
def alignof_UN (P : Platform) : Nat :=
  ((memberLayouts P).map Prod.snd).foldl max 0

/-- The value of `sizeof(UN)`: the largest member size, rounded up to a multiple of the
union's alignment. -/
def sizeof_UN (P : Platform) : Nat :=
  (maxMemberSize P + alignof_UN P - 1) / alignof_UN P * alignof_UN P

/-! ## The cell -/

/-- A `union UN` object: the bytes of its storage, and the `std::string` object that
`set_string_value` constructed in the storage and that has not been destroyed (none when
no string is live). -/
structure UN where
  storage : List Nat
  string_value : Option String
  deriving DecidableEq, Repr

namespace UN

/-- Assignment to a numeric member: the `m.sizeof` little-endian bytes of `pattern` go to
offset 0.  The storage of a live string is reused by this, which ends its lifetime
without running its destructor. -/
def assign (c : UN) (m : Member) (pattern : Nat) : UN :=
  { storage := store (toLE m.sizeof pattern) c.storage, string_value := none }

/-- Reading a numeric member: the pattern in its `m.sizeof` bytes at offset 0. -/
def fetch (c : UN) (m : Member) : Nat :=
  load m.sizeof c.storage

/-- The constructor `UN() : int_value(0) {}` (line 17), run on storage that held `raw`:
only the four bytes of `int_value` are initialised. -/
def ctor (raw : List Nat) : UN :=
  { storage := store (toLE 4 (toUnsigned 32 0)) raw, string_value := none }

/-- The statement `my_un.long_long_int_value = v`. -/
def set_long_long_int_value (c : UN) (v : Int) : UN :=
  c.assign .long_long_int_value (toUnsigned 64 v)

/-- The statement `my_un.int_value = v`. -/
def set_int_value (c : UN) (v : Int) : UN :=
  c.assign .int_value (toUnsigned 32 v)

/-- The statement `my_un.double_value = v`, with `v` given by its 64-bit pattern. -/
def set_double_value (c : UN) (bits : Nat) : UN :=
  c.assign .double_value bits

/-- The statement `my_un.char_value = v`, with `v` given by its code. -/
def set_char_value (c : UN) (code : Nat) : UN :=
  c.assign .char_value code

/-- The expression `my_un.long_long_int_value`. -/
def long_long_int_value (c : UN) : Int :=
  toSigned 64 (c.fetch .long_long_int_value)

/-- The expression `my_un.int_value`. -/
def int_value (c : UN) : Int :=
  toSigned 32 (c.fetch .int_value)

/-- The expression `my_un.double_value`, as its 64-bit pattern. -/
def double_value (c : UN) : Nat :=
  c.fetch .double_value

/-- The expression `my_un.char_value`, as its code. -/
def char_value (c : UN) : Nat :=
  c.fetch .char_value

/-- The method `set_string_value` (lines 26-30): placement new of `std::string(str)` at
the address of the storage. -/
def set_string_value (P : Platform) (c : UN) (str : String) : UN :=
  { storage := store ((P.string_ctor str).take P.sizeof_string) c.storage,
    string_value := some str }

/-- The method `get_string_value` (lines 33-36): the live string; nothing when no string
is live (the behaviour is then undefined). -/
def get_string_value (c : UN) : Option String :=
  c.string_value

/-- The method `destroy_string_value` (lines 39-42): runs the destructor of the live
string; nothing when no string is live (the behaviour is then undefined). -/
def destroy_string_value (P : Platform) (c : UN) : Option UN :=
  match c.string_value with
  | none => none
  | some s =>
    some { storage := store ((P.string_dtor s).take P.sizeof_string) c.storage,
           string_value := none }

/-- A run of assignments to numeric members, in order. -/
def assignAll (c : UN) (ws : List (Member × Nat)) : UN :=
  ws.foldl (fun d w => d.assign w.1 w.2) c

/-- Whether one of the assignments `ws` is to a member at least as wide as `rd`, so that
every byte of `rd` is written by `ws`. -/
def covers (ws : List (Member × Nat)) (rd : Member) : Bool :=
  ws.any (fun w => decide (rd.sizeof ≤ w.1.sizeof))

end UN

/-- The largest width written by the assignments `ws`, starting from `k`. -/
def writtenWidth (ws : List (Member × Nat)) (k : Nat) : Nat :=
  ws.foldl (fun j w => max j w.1.sizeof) k

/-- The platform of the examples: libstdc++ on x86-64 with the cell on the stack at
`0x7ffc00001000`. -/
def examplePlatform : Platform := libstdcxx 0x7ffc00001000 0x55550000a2c0

/-! ## The demonstration `union_test` -/

/-- What `union_test` does with `my_un`, one constructor per kind of access. -/
inductive Stmt where
  | assign (m : Member) (pattern : Nat)
  | read (m : Member)
  | set_string_value (str : String)
  | get_string_value
  | destroy_string_value
  deriving DecidableEq, Repr

/-- The accesses of `union_test` to `my_un` after its construction, in program order
(lines 55-86); `3.14159` is the double with the pattern `0x400921F9F01B866E`. -/
def union_test : List Stmt :=
  [ .assign .long_long_int_value 0x1122334455667788,  -- line 55
    .read .long_long_int_value,                        -- line 56
    .read .int_value,                                  -- line 57
    .read .char_value,                                 -- line 58
    .assign .int_value 0x11223344,                     -- line 62
    .read .int_value,                                  -- line 63
    .read .long_long_int_value,                        -- line 64
    .assign .char_value 0x58,                          -- line 69
    .read .char_value,                                 -- line 70
    .read .int_value,                                  -- line 71
    .read .long_long_int_value,                        -- line 72
    .assign .double_value 0x400921F9F01B866E,          -- line 76
    .read .double_value,                               -- line 77
    .read .long_long_int_value,                        -- line 78
    .set_string_value "hello",                         -- line 82
    .get_string_value,                                 -- line 83
    .read .long_long_int_value,                        -- line 84
    .destroy_string_value ]                            -- line 86

/-- What a statement prints: the pattern read from a numeric member, or the string. -/
inductive Shown where
  | bits (m : Member) (pattern : Nat)
  | text (s : String)
  deriving DecidableEq, Repr

/-- One statement on the cell: the cell after it and what it read, or nothing when the
behaviour is undefined (the string is read or destroyed while none is live). -/
def Stmt.exec (P : Platform) (c : UN) : Stmt → Option (UN × List Shown)
  | .assign m pattern => some (c.assign m pattern, [])
  | .read m => some (c, [.bits m (c.fetch m)])
  | .set_string_value str => some (c.set_string_value P str, [])
  | .get_string_value => (c.get_string_value).map (fun s => (c, [.text s]))
  | .destroy_string_value => (c.destroy_string_value P).map (fun d => (d, []))

/-- A list of statements on the cell, in order. -/
def execAll (P : Platform) : UN → List Stmt → Option (UN × List Shown)
  | c, [] => some (c, [])
  | c, s :: rest =>
    match s.exec P c with
    | none => none
    | some (d, out) =>
      match execAll P d rest with
      | none => none
      | some (e, outs) => some (e, out ++ outs)

/-- The accesses through a numeric member that a list of statements makes from a call of
`set_string_value` until the next call of `destroy_string_value`; `live` tells whether
the list starts inside such a stretch. -/
def numericWhileLive : Bool → List Stmt → List Stmt
  | _, [] => []
  | _, .set_string_value _ :: rest => numericWhileLive true rest
  | _, .destroy_string_value :: rest => numericWhileLive false rest
  | live, .get_string_value :: rest => numericWhileLive live rest
  | live, .assign m pattern :: rest =>
    if live then .assign m pattern :: numericWhileLive live rest
    else numericWhileLive live rest
  | live, .read m :: rest =>
    if live then .read m :: numericWhileLive live rest
    else numericWhileLive live rest

/-- Whether a statement is an access (assignment or read) through a numeric member. -/
def Stmt.isNumeric : Stmt → Bool
  | .assign _ _ => true
  | .read _ => true
  | .set_string_value _ => false
  | .get_string_value => false
  | .destroy_string_value => false

/-- All the accesses to the cell that a list of statements makes after a call of
`set_string_value` and before the next call of `destroy_string_value`, in program order;
`live` tells whether the list starts inside such a stretch. -/
def accessesWhileLive : Bool → List Stmt → List Stmt
  | _, [] => []
  | _, .set_string_value _ :: rest => accessesWhileLive true rest
  | _, .destroy_string_value :: rest => accessesWhileLive false rest
  | live, .get_string_value :: rest =>
    if live then .get_string_value :: accessesWhileLive live rest
    else accessesWhileLive live rest
  | live, .assign m pattern :: rest =>
    if live then .assign m pattern :: accessesWhileLive live rest
    else accessesWhileLive live rest
  | live, .read m :: rest =>
    if live then .read m :: accessesWhileLive live rest
    else accessesWhileLive live rest

/-- Storage contents used in the examples: 32 bytes of `0xAA`. -/
def rawAA : List Nat := List.replicate 32 0xAA

/-! ## Lemmas on bytes -/

theorem toLE_length (k n : Nat) : (toLE k n).length = k := by
  induction k generalizing n with
  | zero => rfl
  | succ k ih => simp [toLE, ih]

theorem load_store_long (n : Nat) (st : List Nat) :
    load 8 (store (toLE 8 n) st) = n % 2 ^ 64 := by
  simp [load, store, toLE, fromLE]
  omega

theorem load_store_int (n : Nat) (st : List Nat) :
    load 4 (store (toLE 4 n) st) = n % 2 ^ 32 := by
  simp [load, store, toLE, fromLE]
  omega

theorem load_store_char (n : Nat) (st : List Nat) :
    load 1 (store (toLE 1 n) st) = n % 256 := by
  simp [load, store, toLE, fromLE]

theorem load_int_store_long (n : Nat) (st : List Nat) :
    load 4 (store (toLE 8 n) st) = n % 2 ^ 32 := by
  simp [load, store, toLE, fromLE]
  omega

theorem load_char_store_long (n : Nat) (st : List Nat) :
    load 1 (store (toLE 8 n) st) = n % 256 := by
  simp [load, store, toLE, fromLE]

theorem load_long_store_int_store_long (n m : Nat) (st : List Nat) :
    load 8 (store (toLE 4 m) (store (toLE 8 n) st))
      = m % 2 ^ 32 + 2 ^ 32 * (n / 2 ^ 32 % 2 ^ 32) := by
  simp [load, store, toLE, fromLE]
  omega

theorem load_int_store_char_store_long (n m : Nat) (st : List Nat) :
    load 4 (store (toLE 1 m) (store (toLE 8 n) st))
      = m % 256 + 256 * (n / 256 % 2 ^ 24) := by
  simp [load, store, toLE, fromLE]
  omega

theorem toSigned_toUnsigned_long (v : Int) (hlo : -2 ^ 63 ≤ v) (hhi : v < 2 ^ 63) :
    toSigned 64 (toUnsigned 64 v % 2 ^ 64) = v := by
  unfold toSigned toUnsigned
  norm_num
  split_ifs <;> omega

theorem toSigned_toUnsigned_int (v : Int) (hlo : -2 ^ 31 ≤ v) (hhi : v < 2 ^ 31) :
    toSigned 32 (toUnsigned 32 v % 2 ^ 32) = v := by
  unfold toSigned toUnsigned
  norm_num
  split_ifs <;> omega

/-! ## Reading a narrower member after writing `long_long_int_value` -/

/-- Claim C1: on a cell with no string live, after `long_long_int_value = v` for a 64-bit
signed `v`, `int_value` is the 32-bit signed value whose pattern is the low 32 bits of
`v`, and `char_value` is the lowest byte of `v` (little-endian storage). -/
theorem int64_write_then_int32_and_char_read (c : UN) (v : Int)
    (hc : c.string_value = none) (hlo : -2 ^ 63 ≤ v) (hhi : v < 2 ^ 63) :
    (c.set_long_long_int_value v).int_value % 2 ^ 32 = v % 2 ^ 32
      ∧ -2 ^ 31 ≤ (c.set_long_long_int_value v).int_value
      ∧ (c.set_long_long_int_value v).int_value < 2 ^ 31
      ∧ ((c.set_long_long_int_value v).char_value : Int) = v % 256 := by
  have h4 := load_int_store_long (toUnsigned 64 v) c.storage
  have h1 := load_char_store_long (toUnsigned 64 v) c.storage
  simp only [UN.set_long_long_int_value, UN.int_value, UN.char_value, UN.fetch, UN.assign,
    Member.sizeof, h4, h1]
  unfold toSigned toUnsigned
  norm_num
  refine ⟨?_, ?_, ?_, ?_⟩
  · split_ifs <;> omega
  · split_ifs <;> omega
  · split_ifs <;> omega
  · omega

/-- The instance of claim C1 at `v = 0x1122334455667788` on a newly constructed cell. -/
theorem int64_write_then_int32_and_char_read_witness :
    (UN.ctor rawAA).string_value = none
      ∧ (-2 ^ 63 : Int) ≤ 0x1122334455667788 ∧ (0x1122334455667788 : Int) < 2 ^ 63
      ∧ (((UN.ctor rawAA).set_long_long_int_value 0x1122334455667788).int_value % 2 ^ 32
            = 0x1122334455667788 % 2 ^ 32
          ∧ -2 ^ 31 ≤ ((UN.ctor rawAA).set_long_long_int_value 0x1122334455667788).int_value
          ∧ ((UN.ctor rawAA).set_long_long_int_value 0x1122334455667788).int_value < 2 ^ 31
          ∧ (((UN.ctor rawAA).set_long_long_int_value 0x1122334455667788).char_value : Int)
              = 0x1122334455667788 % 256) :=
  ⟨rfl, by decide, by decide,
    int64_write_then_int32_and_char_read (UN.ctor rawAA) 0x1122334455667788 rfl
      (by decide) (by decide)⟩

/-- Lines 55-58 of `union_test`: after `long_long_int_value = 0x1122334455667788` the
cell shows `int_value = 0x55667788` and `char_value = 0x88`. -/
theorem int64_write_example :
    ((UN.ctor rawAA).set_long_long_int_value 0x1122334455667788).int_value = 0x55667788
      ∧ ((UN.ctor rawAA).set_long_long_int_value 0x1122334455667788).char_value = 0x88 := by
  decide

/-! ## Writing a narrower member over `long_long_int_value` -/

/-- Claim C2: after `long_long_int_value = v` and then `int_value = w`, the member
`long_long_int_value` has `w` in its low 32 bits and the high 32 bits of `v` in its high
32 bits: the `int` assignment touches the low four bytes only. -/
theorem int32_write_keeps_high_half (c : UN) (v w : Int)
    (hvlo : -2 ^ 63 ≤ v) (hvhi : v < 2 ^ 63) (hwlo : -2 ^ 31 ≤ w) (hwhi : w < 2 ^ 31) :
    ((c.set_long_long_int_value v).set_int_value w).long_long_int_value % 2 ^ 32
        = w % 2 ^ 32
      ∧ ((c.set_long_long_int_value v).set_int_value w).long_long_int_value / 2 ^ 32
        = v / 2 ^ 32 := by
  have h := load_long_store_int_store_long (toUnsigned 64 v) (toUnsigned 32 w) c.storage
  simp only [UN.set_long_long_int_value, UN.set_int_value, UN.long_long_int_value, UN.fetch,
    UN.assign, Member.sizeof, h]
  unfold toSigned toUnsigned
  norm_num
  constructor
  · split_ifs <;> omega
  · split_ifs <;> omega

/-- The instance of claim C2 at `v = 0x1122334455667788`, `w = 0x11223344`. -/
theorem int32_write_keeps_high_half_witness :
    (-2 ^ 63 : Int) ≤ 0x1122334455667788 ∧ (0x1122334455667788 : Int) < 2 ^ 63
      ∧ (-2 ^ 31 : Int) ≤ 0x11223344 ∧ (0x11223344 : Int) < 2 ^ 31
      ∧ ((((UN.ctor rawAA).set_long_long_int_value 0x1122334455667788).set_int_value
              0x11223344).long_long_int_value % 2 ^ 32 = 0x11223344 % 2 ^ 32
          ∧ (((UN.ctor rawAA).set_long_long_int_value 0x1122334455667788).set_int_value
              0x11223344).long_long_int_value / 2 ^ 32 = 0x1122334455667788 / 2 ^ 32) :=
  ⟨by decide, by decide, by decide, by decide,
    int32_write_keeps_high_half (UN.ctor rawAA) 0x1122334455667788 0x11223344
      (by decide) (by decide) (by decide) (by decide)⟩

/-- Lines 62-64 of `union_test`: `int_value = 0x11223344` over `0x1122334455667788`
leaves `long_long_int_value = 0x1122334411223344`. -/
theorem int32_write_example :
    (((UN.ctor rawAA).set_long_long_int_value 0x1122334455667788).set_int_value
      0x11223344).long_long_int_value = 0x1122334411223344 := by
  decide

/-- Claim C3: on a newly constructed cell, after `long_long_int_value = v` and then
`char_value = ch`, the lowest byte of `int_value` is the code `ch` and its other three
bytes are bytes 1 to 3 of `v`: the `char` assignment overwrites the first byte only. -/
theorem char_write_keeps_other_bytes (raw : List Nat) (v : Int) (ch : Nat)
    (hlo : -2 ^ 63 ≤ v) (hhi : v < 2 ^ 63) (hch : ch < 256) :
    (((UN.ctor raw).set_long_long_int_value v).set_char_value ch).int_value % 256 = ch
      ∧ (((UN.ctor raw).set_long_long_int_value v).set_char_value ch).int_value / 256
          % 2 ^ 24 = v / 256 % 2 ^ 24 := by
  have h := load_int_store_char_store_long (toUnsigned 64 v) ch (UN.ctor raw).storage
  simp only [UN.set_long_long_int_value, UN.set_char_value, UN.int_value, UN.fetch,
    UN.assign, Member.sizeof, h]
  unfold toSigned toUnsigned
  norm_num
  constructor
  · split_ifs <;> omega
  · split_ifs <;> omega

/-- The instance of claim C3 at `v = 0x1122334455667788`, `ch = 0x58` (the code of X). -/
theorem char_write_keeps_other_bytes_witness :
    (-2 ^ 63 : Int) ≤ 0x1122334455667788 ∧ (0x1122334455667788 : Int) < 2 ^ 63
      ∧ 0x58 < 256
      ∧ ((((UN.ctor rawAA).set_long_long_int_value 0x1122334455667788).set_char_value
              0x58).int_value % 256 = (0x58 : Nat)
          ∧ (((UN.ctor rawAA).set_long_long_int_value 0x1122334455667788).set_char_value
              0x58).int_value / 256 % 2 ^ 24 = 0x1122334455667788 / 256 % 2 ^ 24) :=
  ⟨by decide, by decide, by decide,
    char_write_keeps_other_bytes rawAA 0x1122334455667788 0x58
      (by decide) (by decide) (by decide)⟩

/-- The scenario of claim C3 evaluated: `char_value = 0x58` over `0x1122334455667788`
leaves `int_value = 0x55667758`. -/
theorem char_write_example :
    (((UN.ctor rawAA).set_long_long_int_value 0x1122334455667788).set_char_value
      0x58).int_value = 0x55667758 := by
  decide

/-! ## Construction -/

/-- Claim C7: whatever the storage held before, a newly constructed cell has
`int_value = 0`, hence `char_value = 0`, and no string live. -/
theorem ctor_int_value_zero (raw : List Nat) :
    (UN.ctor raw).int_value = 0 ∧ (UN.ctor raw).char_value = 0
      ∧ (UN.ctor raw).string_value = none := by
  refine ⟨?_, ?_, rfl⟩
  · simp [UN.ctor, UN.int_value, UN.fetch, Member.sizeof, load, store, toLE, fromLE,
      toSigned, toUnsigned]
  · simp [UN.ctor, UN.char_value, UN.fetch, Member.sizeof, load, store, toLE, fromLE,
      toUnsigned]

/-! ## Same-member round trips -/

/-- Claim C8: on a cell with no string live, a value written through a numeric member
and read back at once through the same member is returned unchanged, for each of
`long_long_int_value`, `int_value`, `char_value` and `double_value` (the double as its
64-bit pattern). -/
theorem same_member_round_trip (c : UN) (v w : Int) (ch bits : Nat)
    (hc : c.string_value = none)
    (hvlo : -2 ^ 63 ≤ v) (hvhi : v < 2 ^ 63) (hwlo : -2 ^ 31 ≤ w) (hwhi : w < 2 ^ 31)
    (hch : ch < 256) (hbits : bits < 2 ^ 64) :
    (c.set_long_long_int_value v).long_long_int_value = v
      ∧ (c.set_int_value w).int_value = w
      ∧ (c.set_char_value ch).char_value = ch
      ∧ (c.set_double_value bits).double_value = bits := by
  refine ⟨?_, ?_, ?_, ?_⟩
  · simp only [UN.set_long_long_int_value, UN.long_long_int_value, UN.fetch, UN.assign,
      Member.sizeof, load_store_long]
    exact toSigned_toUnsigned_long v hvlo hvhi
  · simp only [UN.set_int_value, UN.int_value, UN.fetch, UN.assign, Member.sizeof,
      load_store_int]
    exact toSigned_toUnsigned_int w hwlo hwhi
  · simp only [UN.set_char_value, UN.char_value, UN.fetch, UN.assign, Member.sizeof,
      load_store_char]
    exact Nat.mod_eq_of_lt hch
  · simp only [UN.set_double_value, UN.double_value, UN.fetch, UN.assign, Member.sizeof,
      load_store_long]
    exact Nat.mod_eq_of_lt hbits

/-- The instance of claim C8 at the values `union_test` writes (lines 55, 62, 69, 76). -/
theorem same_member_round_trip_witness :
    (UN.ctor rawAA).string_value = none
      ∧ (-2 ^ 63 : Int) ≤ 0x1122334455667788 ∧ (0x1122334455667788 : Int) < 2 ^ 63
      ∧ (-2 ^ 31 : Int) ≤ 0x11223344 ∧ (0x11223344 : Int) < 2 ^ 31
      ∧ 0x58 < 256 ∧ 0x400921F9F01B866E < 2 ^ 64
      ∧ (((UN.ctor rawAA).set_long_long_int_value 0x1122334455667788).long_long_int_value
            = 0x1122334455667788
          ∧ ((UN.ctor rawAA).set_int_value 0x11223344).int_value = 0x11223344
          ∧ ((UN.ctor rawAA).set_char_value 0x58).char_value = 0x58
          ∧ ((UN.ctor rawAA).set_double_value 0x400921F9F01B866E).double_value
            = 0x400921F9F01B866E) :=
  ⟨rfl, by decide, by decide, by decide, by decide, by decide, by decide,
    same_member_round_trip (UN.ctor rawAA) 0x1122334455667788 0x11223344 0x58
      0x400921F9F01B866E rfl (by decide) (by decide) (by decide) (by decide) (by decide)
      (by decide)⟩

/-! ## The string member -/

/-- Claim C4: on a cell with no string live, `set_string_value(s)` followed at once by
`get_string_value()` returns `s`, for every string `s`, the empty one included. -/
theorem set_then_get_string_value (P : Platform) (c : UN) (s : String)
    (hc : c.string_value = none) :
    (c.set_string_value P s).get_string_value = some s := by
  rfl

/-- The instance of claim C4 at the empty string on a newly constructed cell. -/
theorem set_then_get_string_value_witness :
    (UN.ctor rawAA).string_value = none
      ∧ ((UN.ctor rawAA).set_string_value examplePlatform "").get_string_value = some "" :=
  ⟨rfl, set_then_get_string_value examplePlatform (UN.ctor rawAA) "" rfl⟩

/-! ## Numeric members after the string was destroyed -/

theorem take_of_take_eq {a b : List Nat} {j k : Nat} (hjk : j ≤ k)
    (h : a.take k = b.take k) : a.take j = b.take j := by
  have ha : a.take j = (a.take k).take j := by rw [List.take_take, Nat.min_eq_left hjk]
  have hb : b.take j = (b.take k).take j := by rw [List.take_take, Nat.min_eq_left hjk]
  rw [ha, hb, h]

theorem take_store_eq (bs a b : List Nat) (k : Nat) (h : a.take k = b.take k) :
    (store bs a).take (max k bs.length) = (store bs b).take (max k bs.length) := by
  unfold store
  rw [List.take_append_eq_append_take, List.take_append_eq_append_take]
  congr 1
  by_cases hk : bs.length ≤ k
  · rw [List.take_drop, List.take_drop]
    have hm : bs.length + (max k bs.length - bs.length) = k := by omega
    rw [hm, h]
  · have hm : max k bs.length - bs.length = 0 := by omega
    rw [hm]
    simp

theorem le_writtenWidth (ws : List (Member × Nat)) (k : Nat) : k ≤ writtenWidth ws k := by
  induction ws generalizing k with
  | nil => exact Nat.le_refl k
  | cons w ws ih =>
    have h := ih (max k w.1.sizeof)
    simp only [writtenWidth, List.foldl_cons] at h ⊢
    omega

theorem covers_le_writtenWidth (ws : List (Member × Nat)) (rd : Member) (k : Nat)
    (h : UN.covers ws rd = true) : rd.sizeof ≤ writtenWidth ws k := by
  induction ws generalizing k with
  | nil => simp [UN.covers] at h
  | cons w ws ih =>
    simp only [UN.covers, List.any_cons, Bool.or_eq_true, decide_eq_true_eq] at h
    rcases h with h | h
    · have h2 := le_writtenWidth ws (max k w.1.sizeof)
      simp only [writtenWidth, List.foldl_cons] at h2 ⊢
      omega
    · exact ih (max k w.1.sizeof) h

theorem assignAll_take_eq (ws : List (Member × Nat)) (a b : UN) (k : Nat)
    (h : a.storage.take k = b.storage.take k) :
    (a.assignAll ws).storage.take (writtenWidth ws k)
      = (b.assignAll ws).storage.take (writtenWidth ws k) := by
  induction ws generalizing a b k with
  | nil => exact h
  | cons w ws ih =>
    have h1 := take_store_eq (toLE w.1.sizeof w.2) a.storage b.storage k h
    rw [toLE_length] at h1
    exact ih (a.assign w.1 w.2) (b.assign w.1 w.2) (max k w.1.sizeof) h1

theorem assignAll_fetch_eq (ws : List (Member × Nat)) (rd : Member) (a b : UN)
    (h : UN.covers ws rd = true) :
    (a.assignAll ws).fetch rd = (b.assignAll ws).fetch rd := by
  have h0 : a.storage.take 0 = b.storage.take 0 := by simp
  have h1 := assignAll_take_eq ws a b 0 h0
  have h2 := take_of_take_eq (covers_le_writtenWidth ws rd 0 h) h1
  simp only [UN.fetch, load, h2]

/-- Claim C5, as stated, fails: on libstdc++, after `set_string_value("hello")` and
`destroy_string_value()` the assignment `char_value = 0x58` leaves `int_value = 0x1058`
(bytes 1 to 3 are what the string object left), while on a newly constructed cell it
leaves `int_value = 0x58`. -/
theorem char_write_after_destroy_differs :
    (((UN.ctor rawAA).set_string_value examplePlatform "hello").destroy_string_value
        examplePlatform).map (fun c => (c.assignAll [(.char_value, 0x58)]).int_value)
        = some 0x1058
      ∧ ((UN.ctor rawAA).assignAll [(.char_value, 0x58)]).int_value = 0x58 := by
  decide

theorem drop_store_eq (bs st : List Nat) (m : Nat) (h : bs.length ≤ m) :
    (store bs st).drop m = st.drop m := by
  unfold store
  rw [List.drop_append_eq_append_drop, List.drop_eq_nil_of_le h, List.nil_append,
    List.drop_drop]
  congr 1
  omega

theorem assignAll_drop_eq (ws : List (Member × Nat)) (c : UN) (k : Nat) :
    (c.assignAll ws).storage.drop (writtenWidth ws k)
      = c.storage.drop (writtenWidth ws k) := by
  induction ws generalizing c k with
  | nil => rfl
  | cons w ws ih =>
    have h1 := ih (c.assign w.1 w.2) (max k w.1.sizeof)
    have h2 := le_writtenWidth ws (max k w.1.sizeof)
    have h3 : (toLE w.1.sizeof w.2).length ≤ writtenWidth ws (max k w.1.sizeof) := by
      rw [toLE_length]
      omega
    have h4 := drop_store_eq (toLE w.1.sizeof w.2) c.storage _ h3
    simp only [UN.assignAll, writtenWidth, List.foldl_cons, UN.assign] at h1 h4 ⊢
    rw [h1, h4]

/-- Claim C5, amended: on every cell and for every string `s`, `destroy_string_value()`
after `set_string_value(s)` succeeds and leaves no string live, the storage holding what
the constructor and the destructor of the string stored over the previous bytes.  After a
run `ws` of numeric assignments on that cell, a read of a member no wider than one of the
members assigned gives the same pattern as the same run on any newly constructed cell, and
the bytes behind the widest member assigned are those the destruction left. -/
theorem numeric_writes_after_destroy (P : Platform) (c0 : UN) (raw : List Nat)
    (s : String) (ws : List (Member × Nat)) :
    ∃ c, (c0.set_string_value P s).destroy_string_value P = some c
      ∧ c.string_value = none
      ∧ c.storage = store ((P.string_dtor s).take P.sizeof_string)
          (store ((P.string_ctor s).take P.sizeof_string) c0.storage)
      ∧ (∀ rd : Member, UN.covers ws rd = true →
          (c.assignAll ws).fetch rd = ((UN.ctor raw).assignAll ws).fetch rd)
      ∧ (c.assignAll ws).storage.drop (writtenWidth ws 0)
          = c.storage.drop (writtenWidth ws 0) :=
  ⟨_, rfl, rfl, rfl, fun rd hcov => assignAll_fetch_eq ws rd _ _ hcov,
    assignAll_drop_eq ws _ 0⟩

/-- The instance of the amended claim C5 with `int_value` assigned and `char_value` read
after the string hello was destroyed on a newly constructed cell. -/
theorem numeric_writes_after_destroy_witness :
    UN.covers [(Member.int_value, 0x11223344)] Member.char_value = true
      ∧ ∃ c, ((UN.ctor rawAA).set_string_value examplePlatform "hello").destroy_string_value
            examplePlatform = some c
          ∧ c.string_value = none
          ∧ c.storage = store ((examplePlatform.string_dtor "hello").take
                examplePlatform.sizeof_string)
              (store ((examplePlatform.string_ctor "hello").take
                examplePlatform.sizeof_string) (UN.ctor rawAA).storage)
          ∧ (c.assignAll [(Member.int_value, 0x11223344)]).fetch Member.char_value
            = ((UN.ctor (List.replicate 32 0)).assignAll
                [(Member.int_value, 0x11223344)]).fetch Member.char_value
          ∧ (c.assignAll [(Member.int_value, 0x11223344)]).storage.drop
              (writtenWidth [(Member.int_value, 0x11223344)] 0)
            = c.storage.drop (writtenWidth [(Member.int_value, 0x11223344)] 0) :=
  ⟨rfl, (numeric_writes_after_destroy examplePlatform (UN.ctor rawAA) (List.replicate 32 0)
      "hello" [(Member.int_value, 0x11223344)]).imp
    (fun c h => ⟨h.1, h.2.1, h.2.2.1, h.2.2.2.1 Member.char_value rfl, h.2.2.2.2⟩)⟩

/-- The storage after `set_string_value("hello")`, `destroy_string_value()` and
`int_value = 0x11223344` on the example platform: four bytes of the assignment, then what
the string object left (the rest of its pointer, its length, its characters). -/
theorem int_write_after_destroy_storage :
    (((UN.ctor rawAA).set_string_value examplePlatform "hello").destroy_string_value
        examplePlatform).map (fun c => (c.assignAll [(.int_value, 0x11223344)]).storage)
      = some ([0x44, 0x33, 0x22, 0x11, 0xfc, 0x7f, 0, 0, 5, 0, 0, 0, 0, 0, 0, 0,
               104, 101, 108, 108, 111, 0] ++ List.replicate 10 0xAA) := by
  decide

/-! ## How much of the storage an assignment overwrites -/

/-- Claim C6, as stated, fails: with libstdc++ the cell has 32 bytes, and
`long_long_int_value = v` leaves the 24 bytes behind the first eight as they were, for
`v = 0x1122334455667788` as for `v = 0`. -/
theorem int64_write_leaves_tail :
    sizeof_UN examplePlatform = 32
      ∧ (UN.ctor rawAA).storage.length = 32
      ∧ (UN.ctor rawAA).storage.drop 8 = List.replicate 24 0xAA
      ∧ ((UN.ctor rawAA).set_long_long_int_value 0x1122334455667788).storage.drop 8
          = List.replicate 24 0xAA
      ∧ ((UN.ctor rawAA).set_long_long_int_value 0).storage.drop 8
          = List.replicate 24 0xAA := by
  decide

/-- Claim C6, amended: `long_long_int_value = v` overwrites the first eight bytes of the
storage with the little-endian bytes of `v` and leaves every byte behind them as it was;
the length of the storage is unchanged when it has at least eight bytes. -/
theorem int64_write_overwrites_first_eight (c : UN) (v : Int) :
    (c.set_long_long_int_value v).storage.take 8 = toLE 8 (toUnsigned 64 v)
      ∧ (c.set_long_long_int_value v).storage.drop 8 = c.storage.drop 8
      ∧ (c.set_long_long_int_value v).storage.length = max 8 c.storage.length := by
  simp only [UN.set_long_long_int_value, UN.assign, Member.sizeof, store]
  have hl : (toLE 8 (toUnsigned 64 v)).length = 8 := toLE_length 8 _
  refine ⟨?_, ?_, ?_⟩
  · exact List.take_left' hl
  · rw [List.drop_left' hl, hl]
  · rw [List.length_append, List.length_drop, hl]
    omega

/-! ## The size of the cell -/

theorem roundUp_bounds (n a : Nat) (ha : 0 < a) :
    n ≤ (n + a - 1) / a * a ∧ (n + a - 1) / a * a < n + a := by
  have h1 := Nat.div_add_mod (n + a - 1) a
  have h2 := Nat.mod_lt (n + a - 1) ha
  rw [Nat.mul_comm] at h1
  generalize (n + a - 1) / a * a = r at h1 ⊢
  generalize (n + a - 1) % a = m at h1 h2
  omega

/-- Claim C9: `sizeof(UN)` is the largest of the sizes of its `int64_t`, `int`, `double`,
`char` and `std::string` members plus a padding smaller than the alignment of the union,
it is a multiple of that alignment, and it is at least the size of every member. -/
theorem sizeof_UN_is_max_member_size (P : Platform) :
    (∃ pad, pad < alignof_UN P
        ∧ sizeof_UN P = max 8 (max 4 (max 8 (max 1 P.sizeof_string))) + pad)
      ∧ alignof_UN P ∣ sizeof_UN P
      ∧ (∀ m : Member, m.sizeof ≤ sizeof_UN P)
      ∧ P.sizeof_string ≤ sizeof_UN P := by
  have hn : maxMemberSize P = max 8 (max 4 (max 8 (max 1 P.sizeof_string))) := by
    simp only [maxMemberSize, memberLayouts, List.map, List.foldl]
    omega
  have ha : 0 < alignof_UN P := by
    simp only [alignof_UN, memberLayouts, List.map, List.foldl]
    omega
  have hb := roundUp_bounds (maxMemberSize P) (alignof_UN P) ha
  have hs : sizeof_UN P
      = (maxMemberSize P + alignof_UN P - 1) / alignof_UN P * alignof_UN P := rfl
  rw [← hs, hn] at hb
  refine ⟨⟨sizeof_UN P - max 8 (max 4 (max 8 (max 1 P.sizeof_string))), ?_, ?_⟩, ?_, ?_, ?_⟩
  · omega
  · omega
  · exact ⟨_, by rw [hs, Nat.mul_comm]⟩
  · intro m
    cases m <;> simp only [Member.sizeof] <;> omega
  · omega

/-- The size of the cell on the example platform, where `std::string` has 32 bytes. -/
theorem sizeof_UN_example :
    sizeof_UN examplePlatform = 32 ∧ alignof_UN examplePlatform = 8 := by
  decide

/-! ## The accesses of `union_test` while the string is live -/

/-- Claim C10, as stated, fails: between its calls of `set_string_value` and
`destroy_string_value`, `union_test` reads `long_long_int_value` (line 84). -/
theorem union_test_reads_numeric_while_live :
    Stmt.read Member.long_long_int_value ∈ numericWhileLive false union_test := by
  decide

theorem numericWhileLive_eq_filter (live : Bool) (l : List Stmt) :
    numericWhileLive live l = (accessesWhileLive live l).filter Stmt.isNumeric := by
  induction l generalizing live with
  | nil => rfl
  | cons st rest ih =>
    cases st <;> cases live <;>
      simp [numericWhileLive, accessesWhileLive, Stmt.isNumeric, ih]

/-- Claim C10, amended: between its calls of `set_string_value` and
`destroy_string_value`, `union_test` makes exactly two accesses to the cell, in this
order: `get_string_value()` (line 83), then one read of `long_long_int_value` (line 84).
So it makes no assignment to a numeric member there, and its only access through a
numeric member is that one read, which comes after the string was read. -/
theorem union_test_numeric_accesses_while_live :
    accessesWhileLive false union_test
        = [Stmt.get_string_value, Stmt.read Member.long_long_int_value]
      ∧ numericWhileLive false union_test = [Stmt.read Member.long_long_int_value] := by
  decide

/-- The whole of `union_test` has defined behaviour on every platform and every initial
storage: each statement runs (the string is live when it is read and when it is
destroyed), and no string is live at the end. -/
theorem union_test_runs (P : Platform) (raw : List Nat) :
    ∃ r, execAll P (UN.ctor raw) union_test = some r ∧ r.1.string_value = none :=
  ⟨_, rfl, rfl⟩

/-- What `union_test` reads on the example platform, in order. -/
theorem union_test_output :
    (execAll examplePlatform (UN.ctor rawAA) union_test).map Prod.snd
      = some [ .bits .long_long_int_value 0x1122334455667788,
               .bits .int_value 0x55667788,
               .bits .char_value 0x88,
               .bits .int_value 0x11223344,
               .bits .long_long_int_value 0x1122334411223344,
               .bits .char_value 0x58,
               .bits .int_value 0x11223358,
               .bits .long_long_int_value 0x1122334411223358,
               .bits .double_value 0x400921F9F01B866E,
               .bits .long_long_int_value 0x400921F9F01B866E,
               .text "hello",
               .bits .long_long_int_value 0x7ffc00001010 ] := by
  decide

end UnionCell
